import Mathlib

set_option maxRecDepth 100000

/-!
Shallow embedding of the aingle-wasmer core: the envelope wire format
(types/envelope.rs, codec/encode.rs, codec/decode.rs, codec/checksum.rs),
the packed slice and result types (common/slice.rs), the guest return path
(guest/memory.rs, guest/arena.rs), the host environment (host/env.rs), the
host call result handling (host/instance.rs, host/guest.rs) and the module
cache (host/module.rs).

Machine integers are modelled as `Nat` with explicit reductions modulo
`2 ^ 8`, `2 ^ 16`, `2 ^ 32` or `2 ^ 64` where the Rust code narrows;
byte buffers are `List Nat` whose in-range elements are below 256;
fallible operations return `Except`.
-/

/-- Constant from types/src/lib.rs: magic bytes 0x4149, little-endian "IA". -/
def MAGIC : Nat := 0x4149

/-- Constant from types/src/lib.rs: current protocol version. -/
def PROTOCOL_VERSION : Nat := 1

/-- The flag values of the EnvelopeFlags enum (types/envelope.rs), as u8. -/
def EnvelopeFlags.Compressed : Nat := 1

/-- Encrypted flag bit of EnvelopeFlags. -/
def EnvelopeFlags.Encrypted : Nat := 2

/-- ExpectsResponse flag bit of EnvelopeFlags. -/
def EnvelopeFlags.ExpectsResponse : Nat := 4

/-- IsError flag bit of EnvelopeFlags. -/
def EnvelopeFlags.IsError : Nat := 8

/-- EnvelopeFlags::is_set from types/envelope.rs: flag bit test on a byte. -/
def EnvelopeFlags.is_set (self flags : Nat) : Bool :=
  flags &&& self != 0

/-- SerializeError from common/error.rs. -/
inductive SerializeError where
  | BufferTooSmall (needed available : Nat)
  | UnsupportedType
  | NestingTooDeep
  deriving DecidableEq

/-- DeserializeError from common/error.rs. -/
inductive DeserializeError where
  | UnexpectedEof
  | InvalidFormat
  | TypeMismatch
  | UnknownVariant (v : Nat)
  deriving DecidableEq

/-- MemoryError from common/error.rs. -/
inductive MemoryError where
  | AllocationFailed (requested : Nat)
  | OutOfBounds (offset len max : Nat)
  | Alignment (addr required : Nat)
  | ArenaExhausted
  deriving DecidableEq

/-- WasmError from common/error.rs (the variants used by the codec and guest
paths; the structured variant is omitted, no embedded operation builds it). -/
inductive WasmError where
  | Serialize (e : SerializeError)
  | Deserialize (e : DeserializeError)
  | Memory (e : MemoryError)
  | Guest (msg : String)
  | Host (msg : String)
  deriving DecidableEq

/-- EnvelopeError from types/envelope.rs. -/
inductive EnvelopeError where
  | InvalidMagic (m : Nat)
  | UnsupportedVersion (v : Nat)
  | ChecksumMismatch (expected actual : Nat)
  | BufferTooSmall (needed available : Nat)
  | PayloadTooLarge (n : Nat)
  deriving DecidableEq

/-- HostError from host/error.rs. Message strings that the Rust code builds
with format! are abbreviated to fixed strings; no claim inspects them beyond
the literal "empty error" and "Memory not initialized" messages, which are
kept verbatim. -/
inductive HostError where
  | Compilation (msg : String)
  | Instantiation (msg : String)
  | FunctionNotFound (name : String)
  | MemoryNotFound
  | MemoryAccess (msg : String)
  | Runtime (msg : String)
  | InvalidReturn
  | GuestError (msg : String)
  | Serialization (msg : String)
  | Deserialization (msg : String)
  | MeteringExceeded
  | Cache (msg : String)
  deriving DecidableEq

deriving instance DecidableEq for Except

/-- WasmSlice from common/slice.rs: a (ptr, len) pair of u32 values. -/
structure WasmSlice where
  ptr : Nat
  len : Nat
  deriving DecidableEq

/-- WasmSlice::new. -/
def WasmSlice.new (ptr len : Nat) : WasmSlice := ⟨ptr, len⟩

/-- WasmSlice::empty. -/
def WasmSlice.empty : WasmSlice := ⟨0, 0⟩

/-- WasmSlice::is_empty. -/
def WasmSlice.is_empty (s : WasmSlice) : Bool := s.len == 0

/-- WasmSlice::pack: ((ptr as u64) << 32) | (len as u64). -/
def WasmSlice.pack (s : WasmSlice) : Nat :=
  (s.ptr <<< 32) ||| s.len

/-- WasmSlice::unpack: ptr = (packed >> 32) as u32, len = packed as u32. -/
def WasmSlice.unpack (packed : Nat) : WasmSlice :=
  ⟨(packed >>> 32) % 2 ^ 32, packed % 2 ^ 32⟩

/-- WasmResult from common/slice.rs: a packed u64 with the error flag in
bit 63. -/
structure WasmResult where
  val : Nat
  deriving DecidableEq

/-- WasmResult::ERROR_BIT: 1 << 63. -/
def ERROR_BIT : Nat := 2 ^ 63

/-- WasmResult::ok. -/
def WasmResult.ok (s : WasmSlice) : WasmResult := ⟨s.pack⟩

/-- WasmResult::err. -/
def WasmResult.err (s : WasmSlice) : WasmResult := ⟨s.pack ||| ERROR_BIT⟩

/-- WasmResult::is_err: self.0 & ERROR_BIT != 0. -/
def WasmResult.is_err (r : WasmResult) : Bool :=
  r.val &&& ERROR_BIT != 0

/-- WasmResult::is_ok: !self.is_err(). -/
def WasmResult.is_ok (r : WasmResult) : Bool := ! r.is_err

/-- WasmResult::slice: unpack(self.0 & !ERROR_BIT); the u64 complement of
ERROR_BIT is 2 ^ 63 - 1. -/
def WasmResult.slice (r : WasmResult) : WasmSlice :=
  WasmSlice.unpack (r.val &&& (2 ^ 63 - 1))

/-- WasmResult::into_raw. -/
def WasmResult.into_raw (r : WasmResult) : Nat := r.val

/-- WasmResult::from_raw. -/
def WasmResult.from_raw (raw : Nat) : WasmResult := ⟨raw⟩

/-- EnvelopeHeader from types/envelope.rs. -/
structure EnvelopeHeader where
  magic : Nat
  version : Nat
  flags : Nat
  payload_len : Nat
  checksum : Nat
  deriving DecidableEq

/-- EnvelopeHeader::SIZE. -/
def EnvelopeHeader.SIZE : Nat := 12

/-- EnvelopeHeader::new. -/
def EnvelopeHeader.new (payload_len checksum flags : Nat) : EnvelopeHeader :=
  { magic := MAGIC, version := PROTOCOL_VERSION, flags := flags,
    payload_len := payload_len, checksum := checksum }

/-- EnvelopeHeader::validate: magic must equal MAGIC, version must not
exceed PROTOCOL_VERSION. -/
def EnvelopeHeader.validate (h : EnvelopeHeader) : Except EnvelopeError Unit :=
  if h.magic ≠ MAGIC then
    .error (.InvalidMagic h.magic)
  else if h.version > PROTOCOL_VERSION then
    .error (.UnsupportedVersion h.version)
  else
    .ok ()

/-- EnvelopeHeader::to_bytes: the 12-byte little-endian layout. The modular
reductions express the u16/u8/u32 width of each field. -/
def EnvelopeHeader.to_bytes (h : EnvelopeHeader) : List Nat :=
  [h.magic % 256, h.magic / 256 % 256,
   h.version % 256,
   h.flags % 256,
   h.payload_len % 256, h.payload_len / 256 % 256,
   h.payload_len / 65536 % 256, h.payload_len / 16777216 % 256,
   h.checksum % 256, h.checksum / 256 % 256,
   h.checksum / 65536 % 256, h.checksum / 16777216 % 256]

/-- EnvelopeHeader::from_bytes: parse the 12-byte little-endian layout. -/
def EnvelopeHeader.from_bytes (b : List Nat) : EnvelopeHeader :=
  { magic := b.getD 0 0 + 256 * b.getD 1 0,
    version := b.getD 2 0,
    flags := b.getD 3 0,
    payload_len := b.getD 4 0 + 256 * b.getD 5 0
      + 65536 * b.getD 6 0 + 16777216 * b.getD 7 0,
    checksum := b.getD 8 0 + 256 * b.getD 9 0
      + 65536 * b.getD 10 0 + 16777216 * b.getD 11 0 }

/-- EnvelopeHeader::is_error. -/
def EnvelopeHeader.is_error (h : EnvelopeHeader) : Bool :=
  EnvelopeFlags.is_set EnvelopeFlags.IsError h.flags

/-- One step of the bitwise CRC-32 division (reflected IEEE 802.3
polynomial 0xEDB88320). -/
def crc32Round (c : Nat) : Nat :=
  if c % 2 = 1 then (c / 2) ^^^ 0xEDB88320 else c / 2

/-- Iterate the CRC-32 round a given number of times. -/
def crc32Rounds : Nat → Nat → Nat
  | 0, c => c
  | n + 1, c => crc32Rounds n (crc32Round c)

/-- Fold one input byte into the running CRC-32 state. -/
def crc32Update (crc b : Nat) : Nat :=
  crc32Rounds 8 (crc ^^^ (b % 256))

/-- compute_checksum from codec/checksum.rs. It calls the external
crc32fast crate; this is the standard CRC-32 (IEEE 802.3) that crate
computes, with init and final xor 0xFFFFFFFF. -/
def compute_checksum (data : List Nat) : Nat :=
  (data.foldl crc32Update 0xFFFFFFFF) ^^^ 0xFFFFFFFF

/-- Encoder from codec/encode.rs: a byte buffer and a write position. -/
structure Encoder where
  buffer : List Nat
  position : Nat
  deriving DecidableEq

/-- Encoder::new. -/
def Encoder.new (buffer : List Nat) : Encoder := ⟨buffer, 0⟩

/-- Encoder::remaining. -/
def Encoder.remaining (e : Encoder) : Nat := e.buffer.length - e.position

/-- Encoder::write_bytes: copy the bytes at the current position, or fail
with BufferTooSmall{needed = bytes.len(), available = remaining}. -/
def Encoder.write_bytes (e : Encoder) (bytes : List Nat) : Except WasmError Encoder :=
  if e.remaining < bytes.length then
    .error (.Serialize (.BufferTooSmall bytes.length e.remaining))
  else
    .ok { buffer := e.buffer.take e.position ++ bytes
            ++ e.buffer.drop (e.position + bytes.length),
          position := e.position + bytes.length }

/-- Encoder::finish. -/
def Encoder.finish (e : Encoder) : List Nat := e.buffer.take e.position

/-- encode_with_envelope from codec/encode.rs. The Rust function mutates the
output buffer and returns the number of bytes written; here the final buffer
is returned alongside that count. -/
def encode_with_envelope (payload : List Nat) (flags : Nat) (output : List Nat) :
    Except WasmError (Nat × List Nat) :=
  let total_size := EnvelopeHeader.SIZE + payload.length
  if output.length < total_size then
    .error (.Serialize (.BufferTooSmall total_size output.length))
  else
    let checksum := compute_checksum payload
    let header := EnvelopeHeader.new (payload.length % 2 ^ 32) checksum flags
    match (Encoder.new output).write_bytes header.to_bytes with
    | .error e => .error e
    | .ok enc =>
      match enc.write_bytes payload with
      | .error e => .error e
      | .ok enc => .ok (enc.position, enc.buffer)

/-- decode_envelope from codec/decode.rs. DecodedEnvelope is the pair of the
parsed header and the payload slice. -/
def decode_envelope (buffer : List Nat) : Except WasmError (EnvelopeHeader × List Nat) :=
  if buffer.length < EnvelopeHeader.SIZE then
    .error (.Deserialize .UnexpectedEof)
  else
    let header := EnvelopeHeader.from_bytes (buffer.take EnvelopeHeader.SIZE)
    match header.validate with
    | .error _ => .error (.Deserialize .InvalidFormat)
    | .ok _ =>
      let payload_end := EnvelopeHeader.SIZE + header.payload_len
      if buffer.length < payload_end then
        .error (.Deserialize .UnexpectedEof)
      else
        let payload := (buffer.drop EnvelopeHeader.SIZE).take header.payload_len
        let actual_checksum := compute_checksum payload
        if actual_checksum ≠ header.checksum then
          .error (.Deserialize .InvalidFormat)
        else
          .ok (header, payload)

/-- The state of the guest bump arena (guest/arena.rs). bumpalo's concrete
pointer values are abstracted to a running offset: an allocation returns the
current offset and advances it by the allocation size. -/
structure GuestArena where
  offset : Nat
  deriving DecidableEq

/-- arena_alloc_copy from guest/arena.rs, in state-passing form: returns the
pointer of the copied block and the arena after the allocation. -/
def arena_alloc_copy (a : GuestArena) (data : List Nat) : Nat × GuestArena :=
  (a.offset, ⟨a.offset + data.length⟩)

/-- The byte string b"encoding error" used by return_ok's failure path. -/
def encoding_error_bytes : List Nat :=
  [101, 110, 99, 111, 100, 105, 110, 103, 32, 101, 114, 114, 111, 114]

/-- return_err from guest/memory.rs: encode the message with the IsError
flag into a fixed 256-byte buffer, copy it into the arena and pack an err
result; on encoding failure return the empty-slice error unchanged. -/
def return_err (a : GuestArena) (message : List Nat) : Nat × GuestArena :=
  match encode_with_envelope message EnvelopeFlags.IsError (List.replicate 256 0) with
  | .ok (len, buf) =>
    let res := arena_alloc_copy a (buf.take len)
    ((WasmResult.err (WasmSlice.new (res.1 % 2 ^ 32) (len % 2 ^ 32))).into_raw, res.2)
  | .error _ => ((WasmResult.err WasmSlice.empty).into_raw, a)

/-- return_ok from guest/memory.rs: encode the data into a fixed 4096-byte
buffer, copy it into the arena and pack an ok result; on encoding failure
degrade to return_err(b"encoding error"). -/
def return_ok (a : GuestArena) (data : List Nat) : Nat × GuestArena :=
  match encode_with_envelope data 0 (List.replicate 4096 0) with
  | .ok (len, buf) =>
    let res := arena_alloc_copy a (buf.take len)
    ((WasmResult.ok (WasmSlice.new (res.1 % 2 ^ 32) (len % 2 ^ 32))).into_raw, res.2)
  | .error _ => return_err a encoding_error_bytes

/-- Env from host/env.rs: the per-instance environment. The wasmer Memory is
modelled by its byte contents, the typed allocate handle by a total function
from length to returned pointer, and the deallocate handle by a function that
returns nothing. -/
structure Env where
  memory : Option (List Nat)
  allocate : Option (Nat → Nat)
  deallocate : Option (Nat → Nat → Unit)

/-- Env::new, which is Env::default: all three handles absent. -/
def Env.new : Env := ⟨none, none, none⟩

/-- Env::is_initialized. -/
def Env.is_initialized (env : Env) : Bool :=
  env.memory.isSome && env.allocate.isSome && env.deallocate.isSome

/-- Env::consume_bytes_from_guest: read len bytes at guest_ptr after a
bounds check; fails with MemoryAccess when the memory handle is absent or
the range is out of bounds. -/
def Env.consume_bytes_from_guest (env : Env) (guest_ptr len : Nat) :
    Except HostError (List Nat) :=
  match env.memory with
  | none => .error (HostError.MemoryAccess ("Memory not initialized"))
  | some mem =>
    if mem.length < guest_ptr + len then
      .error (HostError.MemoryAccess ("Out of bounds"))
    else
      .ok ((mem.drop guest_ptr).take len)

/-- Env::move_bytes_to_guest: allocate in the guest, write the bytes, return
the packed slice; fails with MemoryAccess when the memory or the allocate
handle is absent, or when the write is out of bounds. -/
def Env.move_bytes_to_guest (env : Env) (bytes : List Nat) :
    Except HostError Nat :=
  match env.memory with
  | none => .error (HostError.MemoryAccess ("Memory not initialized"))
  | some mem =>
    match env.allocate with
    | none => .error (HostError.MemoryAccess ("Allocate function not initialized"))
    | some allocate =>
      let len := bytes.length
      let ptr := allocate len
      if mem.length < ptr + len then
        .error (HostError.MemoryAccess ("Failed to write to memory"))
      else
        .ok ((WasmSlice.new (ptr % 2 ^ 32) (len % 2 ^ 32)).pack)

/-- Env::deallocate_in_guest: forwards to the guest deallocate handle when
present; when the handle is absent the if-let falls through and the
operation succeeds. -/
def Env.deallocate_in_guest (env : Env) (ptr len : Nat) :
    Except HostError Unit :=
  match env.deallocate with
  | none => .ok ()
  | some f =>
    let _ := f ptr len
    .ok ()

/-- A wasmer Value as returned by a guest export invocation. -/
inductive WasmValue where
  | I32 (v : Int)
  | I64 (v : Int)
  deriving DecidableEq

/-- Reinterpret an i64 as a u64 (the `as u64` cast), two's complement. -/
def i64ToU64 (v : Int) : Nat := (v % 2 ^ 64).toNat

/-- String::from_utf8_lossy, modelled byte-by-byte (exact on ASCII
payloads, which is all the embedded theorems evaluate it on). -/
def utf8_lossy (bytes : List Nat) : String :=
  String.mk (bytes.map (fun b => Char.ofNat b))

/-- The result-handling tail of WasmInstance::call_raw (host/instance.rs,
from the export's return values onward): parse the first return value as an
i64, unpack the WasmResult, handle the empty slice, otherwise read the slice
out of guest memory, decode the envelope and check the error flags. The
formatted Deserialization and MemoryAccess messages are abbreviated. -/
def call_raw_handle_result (results : List WasmValue) (mem : List Nat) :
    Except HostError (List Nat) :=
  match results.head? with
  | some (WasmValue.I64 v) =>
    let result_packed := i64ToU64 v
    let wasm_result := WasmResult.from_raw result_packed
    let slice := wasm_result.slice
    if slice.is_empty then
      if wasm_result.is_err then
        .error (HostError.GuestError ("empty error"))
      else
        .ok []
    else
      if mem.length < slice.ptr + slice.len then
        .error (HostError.MemoryAccess ("read out of bounds"))
      else
        let response := (mem.drop slice.ptr).take slice.len
        match decode_envelope response with
        | .error _ => .error (HostError.Deserialization ("decode error"))
        | .ok (header, payload) =>
          if wasm_result.is_err || header.is_error then
            .error (HostError.GuestError (utf8_lossy payload))
          else
            .ok payload
  | _ => .error HostError.InvalidReturn

/-- The result-handling tail of the call helper in host/guest.rs (from the
export's return values onward): parse the first return value as an i64,
unpack the WasmResult; an empty slice yields empty bytes with no error-bit
check, otherwise the slice is read out of guest memory and returned raw. -/
def guest_call_handle_result (results : List WasmValue) (mem : List Nat) :
    Except String (List Nat) :=
  match results.head? with
  | some (WasmValue.I64 v) =>
    let wasm_result := WasmResult.from_raw (i64ToU64 v)
    let slice := wasm_result.slice
    if slice.is_empty then
      .ok []
    else
      if mem.length < slice.ptr + slice.len then
        .error ("Failed to read result")
      else
        .ok ((mem.drop slice.ptr).take slice.len)
  | _ => .error ("Invalid return type from guest")

/-- ModuleCache from host/module.rs. The HashMap of compiled modules becomes
a map from 32-byte keys to module identities (a Nat standing for the Arc
pointer identity); load_from_disk (cache_path lookup plus deserialisation)
and Module::new compilation are external effects, abstracted as fixed
functions of the cache. save_to_disk is best-effort and affects no result,
so it has no model. -/
structure ModuleCache where
  modules : List Nat → Option Nat
  load_from_disk : List Nat → Option Nat
  compile : List Nat → Except String Nat

/-- ModuleCache::get in state-passing form: in-memory lookup first, then the
disk cache, then compilation; the two miss paths insert into the in-memory
map. Returns the module identity and the updated cache. -/
def ModuleCache.get (self : ModuleCache) (key wasm_bytes : List Nat) :
    Except HostError (Nat × ModuleCache) :=
  match self.modules key with
  | some m => .ok (m, self)
  | none =>
    match self.load_from_disk key with
    | some m =>
      .ok (m, { self with modules := fun k => if k = key then some m else self.modules k })
    | none =>
      match self.compile wasm_bytes with
      | .error e => .error (HostError.Compilation e)
      | .ok m =>
        .ok (m, { self with modules := fun k => if k = key then some m else self.modules k })

/-- A concrete cache used to witness the cache-stability theorem: empty
in-memory map, no disk entries, compilation always yielding the module
identity 7. -/
def demoCache : ModuleCache :=
  { modules := fun _ => none, load_from_disk := fun _ => none, compile := fun _ => .ok 7 }

/-- The state of demoCache after get([1], [2]): key [1] maps to module 7. -/
def demoCache2 : ModuleCache :=
  { modules := fun k => if k = [1] then some 7 else none,
    load_from_disk := fun _ => none, compile := fun _ => .ok 7 }

/-- The decoded header of a buffer: what decode_envelope parses from the
first 12 bytes. -/
def decodedHeader (buffer : List Nat) : EnvelopeHeader :=
  EnvelopeHeader.from_bytes (buffer.take EnvelopeHeader.SIZE)

/-- Sanity anchor for the CRC-32 model: the standard check value of
CRC-32/IEEE over the bytes of "123456789". -/
theorem compute_checksum_check_value :
    compute_checksum [0x31, 0x32, 0x33, 0x34, 0x35, 0x36, 0x37, 0x38, 0x39] = 0xCBF43926 := by
  decide

/-- Sanity anchor matching the test in codec/checksum.rs: the empty CRC. -/
theorem compute_checksum_nil : compute_checksum [] = 0 := by
  decide

/-! Helper lemmas: normal forms for the bitwise operations of the packed
types, reducing them to division and remainder by powers of two. -/

theorem land_two_pow_sub_one_eq_mod (x n : Nat) : x &&& (2 ^ n - 1) = x % 2 ^ n := by
  apply Nat.eq_of_testBit_eq
  intro i
  rw [Nat.testBit_and, Nat.testBit_two_pow_sub_one, Nat.testBit_mod_two_pow]
  rw [Bool.and_comm]

theorem two_pow_mul_lor_eq_add (n a : Nat) {b : Nat} (h : b < 2 ^ n) :
    (2 ^ n * a) ||| b = 2 ^ n * a + b := by
  apply Nat.eq_of_testBit_eq
  intro j
  rw [Nat.testBit_or, Nat.testBit_mul_pow_two_add a h j, Nat.testBit_mul_pow_two]
  by_cases hj : j < n
  · have hge : ¬ (j ≥ n) := by omega
    simp [hj, hge]
  · have hge : j ≥ n := by omega
    have hb : b.testBit j = false :=
      Nat.testBit_lt_two_pow (lt_of_lt_of_le h (Nat.pow_le_pow_right (by omega) hge))
    simp [hj, hge, hb]

theorem pack_eq_add (s : WasmSlice) (h : s.len < 2 ^ 32) :
    s.pack = 2 ^ 32 * s.ptr + s.len := by
  unfold WasmSlice.pack
  rw [Nat.shiftLeft_eq, Nat.mul_comm s.ptr (2 ^ 32), two_pow_mul_lor_eq_add 32 s.ptr h]

theorem lor_error_bit_eq_add {x : Nat} (h : x < 2 ^ 63) :
    x ||| ERROR_BIT = x + 2 ^ 63 := by
  unfold ERROR_BIT
  rw [Nat.lor_comm]
  have h2 := two_pow_mul_lor_eq_add 63 1 h
  rw [Nat.mul_one] at h2
  rw [h2]
  omega

theorem is_err_eq_decide (x : Nat) :
    WasmResult.is_err ⟨x⟩ = decide (x / 2 ^ 63 % 2 = 1) := by
  unfold WasmResult.is_err ERROR_BIT
  rw [Nat.and_two_pow, Nat.testBit_to_div_mod]
  cases hd : decide (x / 2 ^ 63 % 2 = 1) <;> rfl

theorem slice_mk_eq (x : Nat) :
    WasmResult.slice ⟨x⟩ = ⟨x % 2 ^ 63 / 2 ^ 32 % 2 ^ 32, x % 2 ^ 63 % 2 ^ 32⟩ := by
  unfold WasmResult.slice WasmSlice.unpack
  rw [land_two_pow_sub_one_eq_mod, Nat.shiftRight_eq_div_pow]

/-- C4: for every WasmSlice s whose ptr is below the 2 GiB boundary (and
whose len is a u32 value), WasmResult::ok(s) is ok and not err,
WasmResult::err(s) is err and not ok, and the slice() accessor of both
returns exactly s, the decoder clearing bit 63 before unpacking. -/
theorem wasm_result_ok_err_slice (s : WasmSlice) (hp : s.ptr < 2 ^ 31) (hl : s.len < 2 ^ 32) :
    (WasmResult.ok s).is_ok = true ∧ (WasmResult.ok s).is_err = false ∧
    (WasmResult.err s).is_err = true ∧ (WasmResult.err s).is_ok = false ∧
    (WasmResult.ok s).slice = s ∧ (WasmResult.err s).slice = s := by
  obtain ⟨p, l⟩ := s
  simp only at hp hl
  have hpack : WasmSlice.pack ⟨p, l⟩ = 2 ^ 32 * p + l := pack_eq_add ⟨p, l⟩ hl
  have hlt : WasmSlice.pack ⟨p, l⟩ < 2 ^ 63 := by rw [hpack]; omega
  have hok_err : (WasmResult.ok ⟨p, l⟩).is_err = false := by
    show WasmResult.is_err ⟨WasmSlice.pack ⟨p, l⟩⟩ = false
    rw [is_err_eq_decide, hpack]
    simp only [decide_eq_false_iff_not]
    omega
  have herr_err : (WasmResult.err ⟨p, l⟩).is_err = true := by
    show WasmResult.is_err ⟨WasmSlice.pack ⟨p, l⟩ ||| ERROR_BIT⟩ = true
    rw [lor_error_bit_eq_add hlt, is_err_eq_decide, hpack]
    simp only [decide_eq_true_eq]
    omega
  refine ⟨?_, hok_err, herr_err, ?_, ?_, ?_⟩
  · unfold WasmResult.is_ok
    rw [hok_err]
    rfl
  · unfold WasmResult.is_ok
    rw [herr_err]
    rfl
  · show WasmResult.slice ⟨WasmSlice.pack ⟨p, l⟩⟩ = ⟨p, l⟩
    rw [slice_mk_eq, hpack]
    simp only [WasmSlice.mk.injEq]
    constructor <;> omega
  · show WasmResult.slice ⟨WasmSlice.pack ⟨p, l⟩ ||| ERROR_BIT⟩ = ⟨p, l⟩
    rw [lor_error_bit_eq_add hlt, slice_mk_eq, hpack]
    simp only [WasmSlice.mk.injEq]
    constructor <;> omega

/-- Witness for C4 at the concrete slice WasmSlice(200, 10) named by the
claim. -/
theorem wasm_result_ok_err_slice_witness :
    (WasmResult.ok (WasmSlice.new 200 10)).is_ok = true ∧
    (WasmResult.ok (WasmSlice.new 200 10)).is_err = false ∧
    (WasmResult.err (WasmSlice.new 200 10)).is_err = true ∧
    (WasmResult.err (WasmSlice.new 200 10)).is_ok = false ∧
    (WasmResult.ok (WasmSlice.new 200 10)).slice = WasmSlice.new 200 10 ∧
    (WasmResult.err (WasmSlice.new 200 10)).slice = WasmSlice.new 200 10 :=
  wasm_result_ok_err_slice (WasmSlice.new 200 10) (by decide) (by decide)

/-- C7: WasmSlice::pack and WasmSlice::unpack are total inverses in both
directions (over 32-bit field values, respectively 64-bit packed values),
WasmResult::from_raw inverts WasmResult::into_raw, and exactly one of
is_ok and is_err holds for every WasmResult. -/
theorem pack_unpack_inverses :
    (∀ ptr len : Nat, ptr < 2 ^ 32 → len < 2 ^ 32 →
      WasmSlice.unpack (WasmSlice.pack (WasmSlice.new ptr len)) = WasmSlice.new ptr len) ∧
    (∀ x : Nat, x < 2 ^ 64 → (WasmSlice.unpack x).pack = x) ∧
    (∀ r : WasmResult, WasmResult.from_raw r.into_raw = r) ∧
    (∀ r : WasmResult,
      (r.is_ok = true ∧ r.is_err = false) ∨ (r.is_ok = false ∧ r.is_err = true)) := by
  refine ⟨?_, ?_, ?_, ?_⟩
  · intro ptr len hp hl
    rw [WasmSlice.new, pack_eq_add ⟨ptr, len⟩ hl]
    unfold WasmSlice.unpack
    rw [Nat.shiftRight_eq_div_pow]
    simp only [WasmSlice.mk.injEq]
    constructor <;> omega
  · intro x hx
    have hmod : x % 2 ^ 32 < 2 ^ 32 := Nat.mod_lt _ (by omega)
    unfold WasmSlice.unpack
    rw [Nat.shiftRight_eq_div_pow, pack_eq_add ⟨x / 2 ^ 32 % 2 ^ 32, x % 2 ^ 32⟩ hmod]
    simp only
    omega
  · intro r
    obtain ⟨x⟩ := r
    rfl
  · intro r
    unfold WasmResult.is_ok
    cases h : r.is_err
    · left
      simp [h]
    · right
      simp [h]

/-- Witness for C7 at the concrete values of the spec scenarios:
WasmSlice(0x12345678, 0x1000) and the raw value 5. -/
theorem pack_unpack_inverses_witness :
    WasmSlice.unpack (WasmSlice.pack (WasmSlice.new 0x12345678 0x1000)) =
      WasmSlice.new 0x12345678 0x1000 ∧
    (WasmSlice.unpack 5).pack = 5 ∧
    WasmResult.from_raw (WasmResult.into_raw ⟨5⟩) = (⟨5⟩ : WasmResult) ∧
    (((⟨5⟩ : WasmResult).is_ok = true ∧ (⟨5⟩ : WasmResult).is_err = false) ∨
      ((⟨5⟩ : WasmResult).is_ok = false ∧ (⟨5⟩ : WasmResult).is_err = true)) :=
  ⟨pack_unpack_inverses.1 0x12345678 0x1000 (by decide) (by decide),
   pack_unpack_inverses.2.1 5 (by decide),
   pack_unpack_inverses.2.2.1 ⟨5⟩,
   pack_unpack_inverses.2.2.2 ⟨5⟩⟩

/-- C2 (amended): for every guest return value whose unpacked slice has
len = 0, the result handling of WasmInstance::call_raw yields
GuestError("empty error") when the error bit is set and empty bytes when it
is clear; the call helper in host/guest.rs instead yields empty bytes in
both cases, never checking the error bit. -/
theorem empty_slice_handling (v : Int) (mem : List Nat)
    (_hlo : -(2 ^ 63) ≤ v) (_hhi : v < 2 ^ 63)
    (hlen : (WasmResult.from_raw (i64ToU64 v)).slice.len = 0) :
    (call_raw_handle_result [WasmValue.I64 v] mem =
      if (WasmResult.from_raw (i64ToU64 v)).is_err then
        .error (HostError.GuestError ("empty error"))
      else
        .ok []) ∧
    guest_call_handle_result [WasmValue.I64 v] mem = .ok [] := by
  have hempty : (WasmResult.from_raw (i64ToU64 v)).slice.is_empty = true := by
    unfold WasmSlice.is_empty
    rw [hlen]
    rfl
  constructor
  · unfold call_raw_handle_result
    simp only [List.head?_cons]
    rw [hempty]
    rfl
  · unfold guest_call_handle_result
    simp only [List.head?_cons]
    rw [hempty]
    rfl

/-- Witness for C2 at the concrete ok return value 0. -/
theorem empty_slice_handling_witness :
    (call_raw_handle_result [WasmValue.I64 0] [] =
      if (WasmResult.from_raw (i64ToU64 0)).is_err then
        .error (HostError.GuestError ("empty error"))
      else
        .ok []) ∧
    guest_call_handle_result [WasmValue.I64 0] [] = .ok [] :=
  empty_slice_handling 0 [] (by decide) (by decide) (by decide)

/-- Counterexample for C2 as stated: WasmResult::err(empty) packed as the
i64 value -(2 ^ 63) has the error bit set and an empty slice, yet the call
helper in host/guest.rs (cited by the claim) returns ok with empty bytes
rather than any error. -/
theorem empty_slice_handling_counterexample :
    (WasmResult.from_raw (i64ToU64 (-(2 ^ 63)))).is_err = true ∧
    (WasmResult.from_raw (i64ToU64 (-(2 ^ 63)))).slice.len = 0 ∧
    guest_call_handle_result [WasmValue.I64 (-(2 ^ 63))] [] = .ok [] := by
  refine ⟨by decide, by decide, by rfl⟩

/-- C5 (amended): consume_bytes_from_guest fails with a memory-access error
whenever the memory handle is absent; move_bytes_to_guest fails with a
memory-access error whenever the memory handle or the allocate handle is
absent; but deallocate_in_guest succeeds as a no-op whenever the deallocate
handle is absent, so an uninitialised environment does not make every
operation fail. -/
theorem env_uninitialized_behavior :
    (∀ env : Env, ∀ p l : Nat, env.memory = none →
      env.consume_bytes_from_guest p l =
        .error (HostError.MemoryAccess ("Memory not initialized"))) ∧
    (∀ env : Env, ∀ bytes : List Nat, env.memory = none →
      env.move_bytes_to_guest bytes =
        .error (HostError.MemoryAccess ("Memory not initialized"))) ∧
    (∀ env : Env, ∀ bytes : List Nat, env.allocate = none →
      ∃ s, env.move_bytes_to_guest bytes = .error (HostError.MemoryAccess s)) ∧
    (∀ env : Env, ∀ p l : Nat, env.deallocate = none →
      env.deallocate_in_guest p l = .ok ()) := by
  refine ⟨?_, ?_, ?_, ?_⟩
  · intro env p l h
    unfold Env.consume_bytes_from_guest
    rw [h]
  · intro env bytes h
    unfold Env.move_bytes_to_guest
    rw [h]
  · intro env bytes h
    unfold Env.move_bytes_to_guest
    cases hm : env.memory with
    | none => exact ⟨"Memory not initialized", rfl⟩
    | some mem =>
      rw [h]
      exact ⟨"Allocate function not initialized", rfl⟩
  · intro env p l h
    unfold Env.deallocate_in_guest
    rw [h]

/-- Witness for C5 (amended) at the fresh default environment. -/
theorem env_uninitialized_behavior_witness :
    Env.new.consume_bytes_from_guest 0 4 =
      .error (HostError.MemoryAccess ("Memory not initialized")) ∧
    Env.new.move_bytes_to_guest [1, 2] =
      .error (HostError.MemoryAccess ("Memory not initialized")) ∧
    (∃ s, Env.new.move_bytes_to_guest [1, 2] = .error (HostError.MemoryAccess s)) ∧
    Env.new.deallocate_in_guest 0 0 = .ok () :=
  ⟨env_uninitialized_behavior.1 Env.new 0 4 rfl,
   env_uninitialized_behavior.2.1 Env.new [1, 2] rfl,
   env_uninitialized_behavior.2.2.1 Env.new [1, 2] rfl,
   env_uninitialized_behavior.2.2.2 Env.new 0 0 rfl⟩

/-- Counterexample for C5 as stated: the fresh environment is not
initialised, yet deallocate_in_guest succeeds instead of failing with a
memory-access error. -/
theorem env_uninitialized_counterexample :
    Env.new.is_initialized = false ∧
    Env.new.deallocate_in_guest 0 0 = .ok () :=
  ⟨rfl, rfl⟩

/-! Helper lemmas for the envelope codec. -/

theorem crc32Round_lt {c : Nat} (h : c < 2 ^ 32) : crc32Round c < 2 ^ 32 := by
  unfold crc32Round
  split
  · exact Nat.xor_lt_two_pow (by omega) (by norm_num)
  · omega

theorem crc32Rounds_lt (n : Nat) {c : Nat} (h : c < 2 ^ 32) : crc32Rounds n c < 2 ^ 32 := by
  induction n generalizing c with
  | zero => exact h
  | succ k ih => exact ih (crc32Round_lt h)

theorem crc32Update_lt {crc : Nat} (b : Nat) (h : crc < 2 ^ 32) :
    crc32Update crc b < 2 ^ 32 := by
  unfold crc32Update
  exact crc32Rounds_lt 8 (Nat.xor_lt_two_pow h (by omega))

theorem crc32_foldl_lt (data : List Nat) {acc : Nat} (h : acc < 2 ^ 32) :
    data.foldl crc32Update acc < 2 ^ 32 := by
  induction data generalizing acc with
  | nil => exact h
  | cons b rest ih => exact ih (crc32Update_lt b h)

theorem compute_checksum_lt (data : List Nat) : compute_checksum data < 2 ^ 32 := by
  unfold compute_checksum
  exact Nat.xor_lt_two_pow (crc32_foldl_lt data (by norm_num)) (by norm_num)

theorem to_bytes_length (h : EnvelopeHeader) : h.to_bytes.length = 12 := rfl

theorem from_bytes_to_bytes (h : EnvelopeHeader)
    (hm : h.magic < 2 ^ 16) (hv : h.version < 2 ^ 8) (hf : h.flags < 2 ^ 8)
    (hp : h.payload_len < 2 ^ 32) (hc : h.checksum < 2 ^ 32) :
    EnvelopeHeader.from_bytes h.to_bytes = h := by
  obtain ⟨m, v, fl, pl, ck⟩ := h
  simp only at hm hv hf hp hc
  simp only [EnvelopeHeader.to_bytes, EnvelopeHeader.from_bytes,
    List.getD_cons_zero, List.getD_cons_succ, EnvelopeHeader.mk.injEq]
  refine ⟨?_, ?_, ?_, ?_, ?_⟩ <;> omega

theorem encode_with_envelope_err (p : List Nat) (f : Nat) (out : List Nat)
    (h : out.length < 12 + p.length) :
    encode_with_envelope p f out =
      .error (.Serialize (.BufferTooSmall (12 + p.length) out.length)) := by
  unfold encode_with_envelope EnvelopeHeader.SIZE
  rw [if_pos h]

theorem encode_with_envelope_ok (p : List Nat) (f : Nat) (out : List Nat)
    (h : 12 + p.length ≤ out.length) :
    encode_with_envelope p f out =
      .ok (12 + p.length,
        (EnvelopeHeader.new (p.length % 2 ^ 32) (compute_checksum p) f).to_bytes
          ++ p ++ out.drop (12 + p.length)) := by
  have hhb : (EnvelopeHeader.new (p.length % 2 ^ 32) (compute_checksum p) f).to_bytes.length
      = 12 := rfl
  unfold encode_with_envelope EnvelopeHeader.SIZE
  rw [if_neg (by omega)]
  unfold Encoder.new Encoder.write_bytes Encoder.remaining
  simp only
  rw [if_neg (by simp only [hhb]; omega)]
  simp only [List.take_zero, List.nil_append, List.drop_drop, Nat.zero_add]
  rw [if_neg (by
    simp only [List.length_append, hhb, List.length_drop]
    omega)]
  rw [List.take_left, List.drop_append, List.drop_drop, hhb]

theorem validate_new (a b c : Nat) : (EnvelopeHeader.new a b c).validate = .ok () := by
  unfold EnvelopeHeader.validate EnvelopeHeader.new
  simp

theorem decode_encoded (p : List Nat) (f : Nat) (hf : f < 2 ^ 8) (hp : p.length < 2 ^ 32) :
    decode_envelope
        ((EnvelopeHeader.new (p.length % 2 ^ 32) (compute_checksum p) f).to_bytes ++ p) =
      .ok ({ magic := 0x4149, version := 1, flags := f,
             payload_len := p.length, checksum := compute_checksum p }, p) := by
  have hmod : p.length % 2 ^ 32 = p.length := Nat.mod_eq_of_lt hp
  have hlen : ((EnvelopeHeader.new (p.length % 2 ^ 32) (compute_checksum p) f).to_bytes
      ++ p).length = 12 + p.length := by
    rw [List.length_append, to_bytes_length]
  have hhdr : EnvelopeHeader.from_bytes
      (((EnvelopeHeader.new (p.length % 2 ^ 32) (compute_checksum p) f).to_bytes ++ p).take
        EnvelopeHeader.SIZE) =
      EnvelopeHeader.new (p.length % 2 ^ 32) (compute_checksum p) f := by
    rw [show EnvelopeHeader.SIZE = 12 from rfl, List.take_left' (to_bytes_length _),
      from_bytes_to_bytes]
    · show MAGIC < 2 ^ 16
      norm_num [MAGIC]
    · show PROTOCOL_VERSION < 2 ^ 8
      norm_num [PROTOCOL_VERSION]
    · exact hf
    · exact Nat.mod_lt _ (by norm_num)
    · exact compute_checksum_lt p
  simp only [decode_envelope, hhdr, validate_new, hlen]
  rw [if_neg (by norm_num [EnvelopeHeader.SIZE])]
  rw [if_neg (by simp only [EnvelopeHeader.new, EnvelopeHeader.SIZE, hlen]; omega)]
  rw [show EnvelopeHeader.SIZE = 12 from rfl, List.drop_left' (to_bytes_length _)]
  simp only [EnvelopeHeader.new, hmod, List.take_length]
  rw [if_neg (by simp)]
  simp [MAGIC, PROTOCOL_VERSION]

/-- C1: for every payload p with len(p) < 2^32 and every flag byte f,
encoding p with flags f into a buffer of capacity at least 12 + len(p) via
encode_with_envelope and then decoding the written bytes with
decode_envelope succeeds, yielding the payload p and a header whose flags
equal f, whose payload_len equals len(p) and whose checksum equals
crc32(p). -/
theorem encode_decode_roundtrip (p : List Nat) (f : Nat) (out : List Nat)
    (hf : f < 2 ^ 8) (hp : p.length < 2 ^ 32) (hcap : 12 + p.length ≤ out.length) :
    ∃ buf, encode_with_envelope p f out = .ok (12 + p.length, buf) ∧
      decode_envelope (buf.take (12 + p.length)) =
        .ok ({ magic := 0x4149, version := 1, flags := f,
               payload_len := p.length, checksum := compute_checksum p }, p) := by
  refine ⟨_, encode_with_envelope_ok p f out hcap, ?_⟩
  have htake : ((EnvelopeHeader.new (p.length % 2 ^ 32) (compute_checksum p) f).to_bytes
      ++ p ++ out.drop (12 + p.length)).take (12 + p.length) =
      (EnvelopeHeader.new (p.length % 2 ^ 32) (compute_checksum p) f).to_bytes ++ p :=
    List.take_left' (by rw [List.length_append, to_bytes_length])
  rw [htake]
  exact decode_encoded p f hf hp

/-- Witness for C1: the two-byte payload [104, 105] with flag byte 3 in a
20-byte buffer. -/
theorem encode_decode_roundtrip_witness :
    ∃ buf, encode_with_envelope [104, 105] 3 (List.replicate 20 0) = .ok (14, buf) ∧
      decode_envelope (buf.take 14) =
        .ok ({ magic := 0x4149, version := 1, flags := 3,
               payload_len := 2, checksum := compute_checksum [104, 105] }, [104, 105]) :=
  encode_decode_roundtrip [104, 105] 3 (List.replicate 20 0) (by decide) (by decide) (by simp)

/-- C6: encode_with_envelope fails with BufferTooSmall carrying
needed = 12 + len(payload) and available = output length exactly when the
output is shorter than 12 + len(payload), succeeding with 12 + len(payload)
bytes written otherwise; and Encoder::write_bytes of N+1 bytes into a
buffer with N bytes remaining fails with BufferTooSmall{needed = N+1,
available = N}. -/
theorem encode_buffer_too_small (p : List Nat) (f : Nat) (out : List Nat) :
    (out.length < 12 + p.length →
      encode_with_envelope p f out =
        .error (.Serialize (.BufferTooSmall (12 + p.length) out.length))) ∧
    (12 + p.length ≤ out.length →
      ∃ buf, encode_with_envelope p f out = .ok (12 + p.length, buf)) ∧
    (∀ e : Encoder, ∀ bytes : List Nat, bytes.length = e.remaining + 1 →
      e.write_bytes bytes =
        .error (.Serialize (.BufferTooSmall (e.remaining + 1) e.remaining))) := by
  refine ⟨fun h => encode_with_envelope_err p f out h,
          fun h => ⟨_, encode_with_envelope_ok p f out h⟩, ?_⟩
  intro e bytes hb
  unfold Encoder.write_bytes
  rw [hb, if_pos (by omega)]

/-- Witness for C6: a one-byte payload in an empty buffer, the same payload
in a 13-byte buffer, and a one-byte write into an exhausted encoder. -/
theorem encode_buffer_too_small_witness :
    encode_with_envelope [1] 0 [] = .error (.Serialize (.BufferTooSmall 13 0)) ∧
    (∃ buf, encode_with_envelope [1] 0 (List.replicate 13 0) = .ok (13, buf)) ∧
    (Encoder.new []).write_bytes [7] = .error (.Serialize (.BufferTooSmall 1 0)) :=
  ⟨(encode_buffer_too_small [1] 0 []).1 (by decide),
   (encode_buffer_too_small [1] 0 (List.replicate 13 0)).2.1 (by simp),
   (encode_buffer_too_small [1] 0 []).2.2 (Encoder.new []) [7] (by decide)⟩

theorem validate_error_of (h : EnvelopeHeader)
    (hbad : h.magic ≠ MAGIC ∨ PROTOCOL_VERSION < h.version) :
    ∃ e, h.validate = .error e := by
  unfold EnvelopeHeader.validate
  rcases hbad with hm | hv
  · rw [if_pos hm]
    exact ⟨_, rfl⟩
  · by_cases hm : h.magic ≠ MAGIC
    · rw [if_pos hm]
      exact ⟨_, rfl⟩
    · rw [if_neg hm, if_pos hv]
      exact ⟨_, rfl⟩

theorem validate_ok_of (h : EnvelopeHeader) (hm : h.magic = MAGIC)
    (hv : h.version ≤ PROTOCOL_VERSION) : h.validate = .ok () := by
  unfold EnvelopeHeader.validate
  rw [if_neg (by simp [hm]), if_neg (by omega)]

/-- C3 (amended): decode_envelope fails with UnexpectedEof on every input
shorter than 12 bytes; on inputs of at least 12 bytes whose parsed header
has a magic other than 0x4149 or a version above 1, it fails with
InvalidFormat even when the input is also shorter than 12 + payload_len
(header validation runs before the payload-length check); on inputs whose
header validates but whose length is below 12 + payload_len it fails with
UnexpectedEof; and on all remaining inputs it fails with InvalidFormat
exactly when the recomputed CRC32 of the payload region differs from the
header checksum, succeeding otherwise. -/
theorem decode_envelope_cases :
    (∀ b : List Nat, b.length < 12 →
      decode_envelope b = .error (.Deserialize .UnexpectedEof)) ∧
    (∀ b : List Nat, 12 ≤ b.length →
      ((decodedHeader b).magic ≠ 0x4149 ∨ 1 < (decodedHeader b).version) →
      decode_envelope b = .error (.Deserialize .InvalidFormat)) ∧
    (∀ b : List Nat, 12 ≤ b.length →
      (decodedHeader b).magic = 0x4149 → (decodedHeader b).version ≤ 1 →
      b.length < 12 + (decodedHeader b).payload_len →
      decode_envelope b = .error (.Deserialize .UnexpectedEof)) ∧
    (∀ b : List Nat, 12 ≤ b.length →
      (decodedHeader b).magic = 0x4149 → (decodedHeader b).version ≤ 1 →
      12 + (decodedHeader b).payload_len ≤ b.length →
      (compute_checksum ((b.drop 12).take (decodedHeader b).payload_len) ≠
          (decodedHeader b).checksum →
        decode_envelope b = .error (.Deserialize .InvalidFormat)) ∧
      (compute_checksum ((b.drop 12).take (decodedHeader b).payload_len) =
          (decodedHeader b).checksum →
        decode_envelope b =
          .ok (decodedHeader b, (b.drop 12).take (decodedHeader b).payload_len))) := by
  refine ⟨?_, ?_, ?_, ?_⟩
  · intro b h
    unfold decode_envelope
    rw [if_pos (by simpa [EnvelopeHeader.SIZE] using h)]
  · intro b hb hbad
    obtain ⟨e, he⟩ := validate_error_of (decodedHeader b)
      (by simpa [MAGIC, PROTOCOL_VERSION] using hbad)
    simp only [decodedHeader, EnvelopeHeader.SIZE] at he
    simp only [decode_envelope, EnvelopeHeader.SIZE, he]
    rw [if_neg (by omega)]
  · intro b hb hm hv hshort
    have hval : (decodedHeader b).validate = .ok () :=
      validate_ok_of _ (by simpa [MAGIC] using hm) (by simpa [PROTOCOL_VERSION] using hv)
    simp only [decodedHeader, EnvelopeHeader.SIZE] at hval hshort
    simp only [decode_envelope, EnvelopeHeader.SIZE, hval]
    rw [if_neg (by omega), if_pos (by omega)]
  · intro b hb hm hv hlong
    have hval : (decodedHeader b).validate = .ok () :=
      validate_ok_of _ (by simpa [MAGIC] using hm) (by simpa [PROTOCOL_VERSION] using hv)
    simp only [decodedHeader, EnvelopeHeader.SIZE] at hval hlong
    constructor
    · intro hck
      simp only [decodedHeader, EnvelopeHeader.SIZE] at hck
      simp only [decode_envelope, EnvelopeHeader.SIZE, hval]
      rw [if_neg (by omega), if_neg (by omega), if_pos hck]
    · intro hck
      simp only [decodedHeader, EnvelopeHeader.SIZE] at hck
      simp only [decode_envelope, decodedHeader, EnvelopeHeader.SIZE, hval]
      rw [if_neg (by omega), if_neg (by omega), if_neg (not_ne_iff.mpr hck)]

/-- Witness for C3 (amended): the empty input, a 12-byte input with magic
0xFFFF, a valid header whose payload is truncated, a valid empty envelope
with a wrong checksum, and a valid empty envelope. -/
theorem decode_envelope_cases_witness :
    decode_envelope [] = .error (.Deserialize .UnexpectedEof) ∧
    decode_envelope [0xFF, 0xFF, 1, 0, 0, 0, 0, 0, 0, 0, 0, 0] =
      .error (.Deserialize .InvalidFormat) ∧
    decode_envelope [0x49, 0x41, 1, 0, 5, 0, 0, 0, 0, 0, 0, 0] =
      .error (.Deserialize .UnexpectedEof) ∧
    decode_envelope [0x49, 0x41, 1, 0, 0, 0, 0, 0, 1, 0, 0, 0] =
      .error (.Deserialize .InvalidFormat) ∧
    decode_envelope [0x49, 0x41, 1, 0, 0, 0, 0, 0, 0, 0, 0, 0] =
      .ok (decodedHeader [0x49, 0x41, 1, 0, 0, 0, 0, 0, 0, 0, 0, 0], []) :=
  ⟨decode_envelope_cases.1 [] (by decide),
   decode_envelope_cases.2.1 _ (by decide) (Or.inl (by decide)),
   decode_envelope_cases.2.2.1 _ (by decide) (by decide) (by decide) (by decide),
   (decode_envelope_cases.2.2.2 _ (by decide) (by decide) (by decide) (by decide)).1 (by decide),
   (decode_envelope_cases.2.2.2 _ (by decide) (by decide) (by decide) (by decide)).2 (by decide)⟩

/-- Counterexample for C3 as stated: the 12-byte input with magic 0xFFFF
and payload_len 1 is shorter than 12 + payload_len, so the claim requires
UnexpectedEof there, but decode_envelope validates the header first and
returns InvalidFormat. -/
theorem decode_envelope_order_counterexample :
    ([0xFF, 0xFF, 1, 0, 1, 0, 0, 0, 0, 0, 0, 0] : List Nat).length <
      12 + (decodedHeader [0xFF, 0xFF, 1, 0, 1, 0, 0, 0, 0, 0, 0, 0]).payload_len ∧
    decode_envelope [0xFF, 0xFF, 1, 0, 1, 0, 0, 0, 0, 0, 0, 0] =
      .error (.Deserialize .InvalidFormat) ∧
    decode_envelope [0xFF, 0xFF, 1, 0, 1, 0, 0, 0, 0, 0, 0, 0] ≠
      .error (.Deserialize .UnexpectedEof) := by
  refine ⟨by decide, by decide, by decide⟩

/-- C8: when the envelope encoding inside return_ok fails, return_ok
returns exactly the value of return_err(b"encoding error") on the same
arena; when the envelope encoding inside return_err fails, return_err
returns WasmResult::err of the empty slice with the arena unchanged; and
both functions are total, always producing a packed u64 result. -/
theorem return_path_degradation (a : GuestArena) :
    (∀ data : List Nat,
      (∃ e, encode_with_envelope data 0 (List.replicate 4096 0) = .error e) →
      return_ok a data = return_err a encoding_error_bytes) ∧
    (∀ message : List Nat,
      (∃ e, encode_with_envelope message EnvelopeFlags.IsError (List.replicate 256 0) =
        .error e) →
      return_err a message = ((WasmResult.err WasmSlice.empty).into_raw, a)) ∧
    (∀ data : List Nat,
      (return_ok a data).1 < 2 ^ 64 ∧ (return_err a data).1 < 2 ^ 64) := by
  have herr : ∀ m : List Nat, (return_err a m).1 < 2 ^ 64 := by
    intro m
    unfold return_err
    cases henc : encode_with_envelope m EnvelopeFlags.IsError (List.replicate 256 0) with
    | error e =>
      show (WasmResult.err WasmSlice.empty).into_raw < 2 ^ 64
      decide
    | ok v =>
      obtain ⟨len, buf⟩ := v
      show WasmSlice.pack (WasmSlice.new (a.offset % 2 ^ 32) (len % 2 ^ 32)) ||| ERROR_BIT
        < 2 ^ 64
      apply Nat.or_lt_two_pow
      · rw [pack_eq_add _ (Nat.mod_lt _ (by norm_num))]
        show 2 ^ 32 * (a.offset % 2 ^ 32) + len % 2 ^ 32 < 2 ^ 64
        have h1 : a.offset % 2 ^ 32 < 2 ^ 32 := Nat.mod_lt _ (by norm_num)
        have h2 : len % 2 ^ 32 < 2 ^ 32 := Nat.mod_lt _ (by norm_num)
        omega
      · norm_num [ERROR_BIT]
  have hok : ∀ d : List Nat, (return_ok a d).1 < 2 ^ 64 := by
    intro d
    unfold return_ok
    cases henc : encode_with_envelope d 0 (List.replicate 4096 0) with
    | error e => exact herr encoding_error_bytes
    | ok v =>
      obtain ⟨len, buf⟩ := v
      show WasmSlice.pack (WasmSlice.new (a.offset % 2 ^ 32) (len % 2 ^ 32)) < 2 ^ 64
      rw [pack_eq_add _ (Nat.mod_lt _ (by norm_num))]
      show 2 ^ 32 * (a.offset % 2 ^ 32) + len % 2 ^ 32 < 2 ^ 64
      have h1 : a.offset % 2 ^ 32 < 2 ^ 32 := Nat.mod_lt _ (by norm_num)
      have h2 : len % 2 ^ 32 < 2 ^ 32 := Nat.mod_lt _ (by norm_num)
      omega
  refine ⟨?_, ?_, fun d => ⟨hok d, herr d⟩⟩
  · intro data hex
    obtain ⟨e, he⟩ := hex
    unfold return_ok
    rw [he]
  · intro message hex
    obtain ⟨e, he⟩ := hex
    unfold return_err
    rw [he]

/-- Witness for C8: an over-long data buffer, an over-long error message,
and the totality bound at a small input. -/
theorem return_path_degradation_witness :
    return_ok ⟨0⟩ (List.replicate 4085 0) = return_err ⟨0⟩ encoding_error_bytes ∧
    return_err ⟨0⟩ (List.replicate 245 0) = ((WasmResult.err WasmSlice.empty).into_raw, ⟨0⟩) ∧
    ((return_ok ⟨0⟩ [1]).1 < 2 ^ 64 ∧ (return_err ⟨0⟩ [1]).1 < 2 ^ 64) :=
  ⟨(return_path_degradation ⟨0⟩).1 (List.replicate 4085 0)
    ⟨_, encode_with_envelope_err _ 0 _ (by simp only [List.length_replicate]; omega)⟩,
   (return_path_degradation ⟨0⟩).2.1 (List.replicate 245 0)
    ⟨_, encode_with_envelope_err _ EnvelopeFlags.IsError _
      (by simp only [List.length_replicate]; omega)⟩,
   (return_path_degradation ⟨0⟩).2.2 [1]⟩

/-- C10: the guest return path caps come from fixed encode buffers, not the
arena: return_ok encodes into a fixed 4096-byte buffer, so any data longer
than 4084 bytes (12 + len > 4096) degrades to return_err(b"encoding
error"); data up to 4084 bytes takes the ok path; and return_err encodes
into a fixed 256-byte buffer, so any message longer than 244 bytes yields
the empty-slice error. -/
theorem fixed_return_caps (a : GuestArena) :
    (∀ data : List Nat, 4084 < data.length →
      return_ok a data = return_err a encoding_error_bytes) ∧
    (∀ data : List Nat, data.length ≤ 4084 →
      return_ok a data =
        ((WasmResult.ok (WasmSlice.new (a.offset % 2 ^ 32)
            ((12 + data.length) % 2 ^ 32))).into_raw,
         ⟨a.offset + (12 + data.length)⟩)) ∧
    (∀ message : List Nat, 244 < message.length →
      return_err a message = ((WasmResult.err WasmSlice.empty).into_raw, a)) := by
  refine ⟨?_, ?_, ?_⟩
  · intro data h
    unfold return_ok
    rw [encode_with_envelope_err _ 0 _ (by simp only [List.length_replicate]; omega)]
  · intro data h
    unfold return_ok
    rw [encode_with_envelope_ok _ 0 _ (by simp only [List.length_replicate]; omega)]
    have hbuf : ((EnvelopeHeader.new (data.length % 2 ^ 32) (compute_checksum data) 0).to_bytes
        ++ data ++ (List.replicate 4096 0).drop (12 + data.length)).length = 4096 := by
      simp only [List.length_append, to_bytes_length, List.length_drop, List.length_replicate]
      omega
    show ((WasmResult.ok (WasmSlice.new
        ((arena_alloc_copy a (List.take (12 + data.length) _)).1 % 2 ^ 32)
        ((12 + data.length) % 2 ^ 32))).into_raw,
      (arena_alloc_copy a (List.take (12 + data.length) _)).2) = _
    simp only [arena_alloc_copy, List.length_take, hbuf]
    rw [Nat.min_eq_left (by omega)]
  · intro message h
    unfold return_err
    rw [encode_with_envelope_err _ EnvelopeFlags.IsError _
      (by simp only [List.length_replicate]; omega)]

/-- Witness for C10: 4100 bytes of data degrade to the encoding-error path,
a one-byte datum takes the ok path, and a 245-byte message yields the
empty-slice error. -/
theorem fixed_return_caps_witness :
    return_ok ⟨3⟩ (List.replicate 4100 7) = return_err ⟨3⟩ encoding_error_bytes ∧
    return_ok ⟨3⟩ [9] =
      ((WasmResult.ok (WasmSlice.new (3 % 2 ^ 32) (13 % 2 ^ 32))).into_raw,
        (⟨16⟩ : GuestArena)) ∧
    return_err ⟨3⟩ (List.replicate 245 1) = ((WasmResult.err WasmSlice.empty).into_raw, ⟨3⟩) :=
  ⟨(fixed_return_caps ⟨3⟩).1 (List.replicate 4100 7)
    (by simp only [List.length_replicate]; omega),
   (fixed_return_caps ⟨3⟩).2.1 [9] (by decide),
   (fixed_return_caps ⟨3⟩).2.2 (List.replicate 245 1)
    (by simp only [List.length_replicate]; omega)⟩

/-- C9: after a successful ModuleCache::get(k, b) producing module m and
cache state c2, every subsequent get(k, b2) for any bytes b2 returns the
same module reference m with the cache unchanged: the second lookup hits
the in-memory map, so the bytes argument is never inspected or re-hashed. -/
theorem module_cache_get_stable (c c2 : ModuleCache) (k b : List Nat) (m : Nat)
    (h : c.get k b = .ok (m, c2)) :
    ∀ b2 : List Nat, c2.get k b2 = .ok (m, c2) := by
  intro b2
  unfold ModuleCache.get at h ⊢
  cases hm : c.modules k with
  | some m0 =>
    rw [hm] at h
    simp only [Except.ok.injEq, Prod.mk.injEq] at h
    obtain ⟨hm0, hc⟩ := h
    rw [← hc, hm, hm0]
  | none =>
    rw [hm] at h
    cases hd : c.load_from_disk k with
    | some m1 =>
      rw [hd] at h
      simp only [Except.ok.injEq, Prod.mk.injEq] at h
      obtain ⟨hm1, hc⟩ := h
      subst hm1
      subst hc
      simp
    | none =>
      rw [hd] at h
      cases hcomp : c.compile b with
      | error e =>
        rw [hcomp] at h
        cases h
      | ok m2 =>
        rw [hcomp] at h
        simp only [Except.ok.injEq, Prod.mk.injEq] at h
        obtain ⟨hm2, hc⟩ := h
        subst hm2
        subst hc
        simp

/-- Witness for C9: after demoCache.get([1], [2]) compiled module 7 into
demoCache2, a second get for key [1] with different bytes [9] returns the
same module 7 and leaves the cache unchanged. -/
theorem module_cache_get_stable_witness :
    demoCache2.get [1] [9] = .ok (7, demoCache2) :=
  module_cache_get_stable demoCache demoCache2 [1] [2] 7 rfl [9]
